import Mathlib

/-!
Verification of the countdown/announcement logic of `prayer-counter.py`
(`PrayerTimer` class), shallowly embedded in Lean 4.

Times of day are modelled in whole seconds since local midnight; instants
are a (day number, seconds-of-day) pair ordered lexicographically, mirroring
Python `datetime` ordering.  Python's floor division `//` and modulo `%`
(with positive divisors) are modelled by `Int.fdiv` / `Int.fmod`.
-/

namespace PrayerTimer

/-- `PRAYERS = ['Fajr', 'Dhuhr', 'Asr', 'Maghrib', 'Isha']` (line 22). -/
def PRAYERS : List String := ["Fajr", "Dhuhr", "Asr", "Maghrib", "Isha"]

/-- `ANNOUNCEMENT_INTERVALS = [180, 120, 90, 60, 45, 30, 20]` (line 27). -/
def ANNOUNCEMENT_INTERVALS : List Int := [180, 120, 90, 60, 45, 30, 20]

/-- `PrayerTimer.should_announce` (lines 174-188).  The Python method reads
and mutates `self.announced_intervals` (a set of ints) and returns a bool;
here the state is passed explicitly: the result is the returned bool paired
with the updated set. -/
def should_announce (announced : Finset Int) (minutes_remaining : Int) :
    Bool × Finset Int :=
  if minutes_remaining ∈ ANNOUNCEMENT_INTERVALS then
    if minutes_remaining ∉ announced then
      (true, insert minutes_remaining announced)
    else
      (false, announced)
  else if 1 ≤ minutes_remaining ∧ minutes_remaining < 20 then
    if minutes_remaining ∉ announced then
      (true, insert minutes_remaining announced)
    else
      (false, announced)
  else
    (false, announced)

/-- A minute value at which the code can ever announce: a ladder value or an
integer minute in `[1, 20)`. -/
def eligibleMinute (m : Int) : Prop :=
  m ∈ ANNOUNCEMENT_INTERVALS ∨ (1 ≤ m ∧ m < 20)

instance (m : Int) : Decidable (eligibleMinute m) := by
  unfold eligibleMinute; infer_instance

/-- Running `should_announce` over a whole sequence of queries (one call per
loop iteration), threading the `announced_intervals` state; returns the list
of produced booleans and the final state. -/
def announceRun (queries : List Int) (s : Finset Int) :
    List Bool × Finset Int :=
  match queries with
  | [] => ([], s)
  | q :: qs =>
    let r := should_announce s q
    let rest := announceRun qs r.2
    (r.1 :: rest.1, rest.2)

theorem should_announce_of_fresh {m : Int} (hm : eligibleMinute m)
    {s : Finset Int} (hs : m ∉ s) :
    should_announce s m = (true, insert m s) := by
  rcases hm with hm | hm
  · simp [should_announce, hm, hs]
  · rcases Decidable.em (m ∈ ANNOUNCEMENT_INTERVALS) with h | h
    · simp [should_announce, h, hs]
    · simp [should_announce, h, hm, hs]

theorem should_announce_of_fired {m : Int} {s : Finset Int} (hs : m ∈ s) :
    should_announce s m = (false, s) := by
  unfold should_announce
  split_ifs <;> simp_all

/-- `should_announce` never removes a value from the fired set. -/
theorem mem_should_announce_state {a : Int} {s : Finset Int} (ha : a ∈ s)
    (q : Int) : a ∈ (should_announce s q).2 := by
  unfold should_announce
  split_ifs <;> simp [ha]

/-- Any value in the updated fired set was already fired or is the query. -/
theorem should_announce_state_subset {a q : Int} {s : Finset Int}
    (h : a ∈ (should_announce s q).2) : a ∈ s ∨ a = q := by
  unfold should_announce at h
  split_ifs at h <;> simp_all [Finset.mem_insert] <;> tauto

theorem announceRun_length (queries : List Int) (s : Finset Int) :
    (announceRun queries s).1.length = queries.length := by
  induction queries generalizing s with
  | nil => rfl
  | cons q qs ih => simp [announceRun, ih]

/-- State threading across a concatenated run. -/
theorem announceRun_append (xs ys : List Int) (s : Finset Int) :
    announceRun (xs ++ ys) s =
      ((announceRun xs s).1 ++ (announceRun ys (announceRun xs s).2).1,
       (announceRun ys (announceRun xs s).2).2) := by
  induction xs generalizing s with
  | nil => simp [announceRun]
  | cons x xs ih => simp [announceRun, ih]

theorem mem_announceRun_state {a : Int} {s : Finset Int} (ha : a ∈ s)
    (queries : List Int) : a ∈ (announceRun queries s).2 := by
  induction queries generalizing s with
  | nil => exact ha
  | cons q qs ih => exact ih (mem_should_announce_state ha q)

/-- If `m` is never queried and starts outside the fired set, it stays
outside. -/
theorem not_mem_announceRun_state {m : Int} {queries : List Int}
    (hq : m ∉ queries) {s : Finset Int} (hs : m ∉ s) :
    m ∉ (announceRun queries s).2 := by
  induction queries generalizing s with
  | nil => exact hs
  | cons q qs ih =>
    simp only [List.mem_cons, not_or] at hq
    refine ih hq.2 ?_
    intro hmem
    rcases should_announce_state_subset hmem with h | h
    · exact hs h
    · exact hq.1 h

/-- Once `m` is in the fired set, every later call querying `m` yields
`false`. -/
theorem announceRun_fired_false {m : Int} {s : Finset Int} (hs : m ∈ s)
    (queries : List Int) :
    ∀ j, queries.get? j = some m → (announceRun queries s).1.get? j = some false := by
  induction queries generalizing s with
  | nil => intro j h; simp at h
  | cons q qs ih =>
    intro j h
    cases j with
    | zero =>
      simp only [List.get?] at h
      injection h with h
      subst h
      simp [announceRun, should_announce_of_fired hs]
    | succ j =>
      simp only [List.get?] at h
      simpa [announceRun] using
        ih (mem_should_announce_state hs q) j h

/-! ### Instants and the daily schedule

A prayer time string `"HH:MM"` parsed by `datetime.strptime(_, '%H:%M')` is
modelled directly as its value in seconds since midnight; `datetime` values
are a calendar day number plus seconds since that day's midnight, compared
lexicographically exactly as Python compares `datetime` objects. -/

/-- A `datetime` instant: calendar day number and seconds since midnight. -/
structure Instant where
  day : Int
  sod : Int
deriving DecidableEq, Repr

/-- Python `datetime` ordering: lexicographic on (date, time-of-day). -/
def instLt (a b : Instant) : Prop :=
  a.day < b.day ∨ (a.day = b.day ∧ a.sod < b.sod)

instance (a b : Instant) : Decidable (instLt a b) := by
  unfold instLt; infer_instance

/-- The `for prayer in self.PRAYERS` scan of `get_next_prayer`
(lines 146-153): find the first prayer whose time-of-day combined with
today's date (`prayer_time > now`) is strictly after `now`; `times` maps a
prayer name to its time-of-day in seconds since midnight. -/
def scanPrayers (times : String → Int) (now : Instant) :
    List String → Option (String × Instant)
  | [] => none
  | p :: ps =>
    if instLt now ⟨now.day, times p⟩ then
      some (p, ⟨now.day, times p⟩)
    else
      scanPrayers times now ps

/-- `PrayerTimer.get_next_prayer` (lines 142-160).  Both Python return
statements return a non-`None` pair, so the embedding is total: the scan
result if some prayer is still ahead today, otherwise tomorrow's Fajr. -/
def get_next_prayer (times : String → Int) (now : Instant) :
    String × Instant :=
  match scanPrayers times now PRAYERS with
  | some r => r
  | none => ("Fajr", ⟨now.day + 1, times "Fajr"⟩)

/-- `PrayerTimer.get_time_remaining` (lines 162-172), on whole seconds.
`now` and `target` are absolute instants in seconds; Python `//` and `%`
are `Int.fdiv` and `Int.fmod`. -/
def get_time_remaining (now target : Int) : Int × Int × Int :=
  let total_seconds := target - now
  (Int.fdiv total_seconds 3600,
   Int.fdiv (Int.fmod total_seconds 3600) 60,
   Int.fmod total_seconds 60)

/-- The sample schedule used by the spec's concrete test cases:
Fajr 05:00, Dhuhr 12:30, Asr 16:00, Maghrib 19:00, Isha 20:30. -/
def sampleSchedule : String → Int
  | "Fajr" => 5 * 3600
  | "Dhuhr" => 12 * 3600 + 30 * 60
  | "Asr" => 16 * 3600
  | "Maghrib" => 19 * 3600
  | "Isha" => 20 * 3600 + 30 * 60
  | _ => 0

/-! ### The main loop step (`PrayerTimer.run`, lines 248-297)

One iteration of the `while True` body, after `get_next_prayer` and
`get_time_remaining` have produced `(hours, minutes, seconds)`: the
deadline-crossing check, the `current_prayer_announced` flag update, and
the `should_announce` call.  Console output is abstracted to two event
flags: `azan` (the "IT'S TIME FOR ... PRAYER" banner plus `play_azan`) and
`tts` (the interval text-to-speech announcement). -/

/-- The engine's mutable announcement state (`self.announced_intervals`,
`self.current_prayer_announced`). -/
structure EngineState where
  announced_intervals : Finset Int
  current_prayer_announced : Bool
deriving DecidableEq

/-- Result of one loop iteration: which announcements fired and the state
afterwards. -/
structure StepResult where
  azan : Bool
  tts : Bool
  state : EngineState
deriving DecidableEq

/-- Lines 257-297 of `PrayerTimer.run`: `total_minutes = hours * 60 +
minutes`; if `total_minutes == 0 and seconds == 0` and the flag is unset,
announce the prayer, set the flag, clear the fired set and `continue`
(skipping `should_announce`); if the flag is already set, fall through to
`should_announce`; otherwise clear the flag and fall through. -/
def runStep (st : EngineState) (hours minutes seconds : Int) : StepResult :=
  let total_minutes := hours * 60 + minutes
  if total_minutes = 0 ∧ seconds = 0 then
    if st.current_prayer_announced = false then
      { azan := true, tts := false,
        state := { announced_intervals := ∅, current_prayer_announced := true } }
    else
      let r := should_announce st.announced_intervals total_minutes
      { azan := false, tts := r.1,
        state := { announced_intervals := r.2,
                   current_prayer_announced := st.current_prayer_announced } }
  else
    let r := should_announce st.announced_intervals total_minutes
    { azan := false, tts := r.1,
      state := { announced_intervals := r.2, current_prayer_announced := false } }

/-! ### `fetch_prayer_times` (lines 103-126)

The HTTP interaction is abstracted to its observable outcome: either the
request/JSON-decoding raises (network error, timeout, malformed body), or a
decoded JSON object is available.  Dictionary accesses on missing keys raise
`KeyError`; any exception inside the `try` is caught and leads to
`sys.exit(1)`.  If `data['code'] == 200` is false and nothing raises, the
Python function falls off its end and returns `None`. -/

/-- A decoded prayer-times API response: the `code` field if present, and
the `data.timings` mapping if present (each prayer name to its `HH:MM`
string, `none` for a missing key). -/
structure ApiResponse where
  code : Option Int
  timings : Option (String → Option String)

/-- Observable outcome of `PrayerTimer.fetch_prayer_times`. -/
inductive FetchOutcome where
  /-- A full five-entry schedule is returned. -/
  | schedule : List (String × String) → FetchOutcome
  /-- An exception was caught: the error is printed and `sys.exit(1)` runs. -/
  | exitOne : FetchOutcome
  /-- The function falls off its end and returns Python `None`. -/
  | returnsNone : FetchOutcome
deriving DecidableEq

/-- `PrayerTimer.fetch_prayer_times` (lines 103-126).  `resp` is `none` when
`requests.get`/`.json()` raises. -/
def fetch_prayer_times (resp : Option ApiResponse) : FetchOutcome :=
  match resp with
  | none => .exitOne
  | some r =>
    match r.code with
    | none => .exitOne
    | some c =>
      if c = 200 then
        match r.timings with
        | none => .exitOne
        | some t =>
          if PRAYERS.all (fun p => (t p).isSome) then
            .schedule (PRAYERS.map (fun p => (p, (t p).getD "")))
          else
            .exitOne
      else
        .returnsNone

/-! ### `detect_location` (lines 72-95) -/

/-- A decoded geolocation response; `none` fields model missing JSON keys
(whose access raises `KeyError`, caught by the handler). -/
structure GeoResponse where
  status : Option String
  lat : Option ℚ
  lon : Option ℚ
  city : Option String
  country : Option String

/-- The location dictionary built by `detect_location`. -/
structure Location where
  latitude : ℚ
  longitude : ℚ
  city : String
  country : String
deriving DecidableEq

/-- The hardcoded fallback (lines 90-95): Mecca, Saudi Arabia. -/
def meccaDefault : Location :=
  { latitude := 21.4225, longitude := 39.8262,
    city := "Mecca", country := "Saudi Arabia" }

/-- `PrayerTimer.detect_location` (lines 72-95).  `resp` is `none` when the
HTTP request or JSON decoding raises (network error, timeout, malformed
response); a missing key raises `KeyError`, also caught, and the
`status != 'success'` path falls through to the same fallback. -/
def detect_location (resp : Option GeoResponse) : Location :=
  match resp with
  | none => meccaDefault
  | some r =>
    if r.status = some "success" then
      match r.lat, r.lon, r.city, r.country with
      | some la, some lo, some ci, some co =>
        { latitude := la, longitude := lo, city := ci, country := co }
      | _, _, _, _ => meccaDefault
    else
      meccaDefault

/-! ### Loop-level error handling (`PrayerTimer.run`, lines 248-304)

The `while True` loop wraps each iteration in `try`: a `KeyboardInterrupt`
prints the farewell and breaks; any other `Exception` is printed, the loop
sleeps 5 seconds and continues; a normal iteration ends with a 1-second
sleep.  Each iteration's outcome is abstracted to one of three events. -/

/-- What a single loop iteration did: completed normally, raised
`KeyboardInterrupt`, or raised some other `Exception`. -/
inductive LoopEvent where
  | normal
  | interrupt
  | error
deriving DecidableEq

/-- Processing a finite trace of iteration outcomes: returns the list of
sleep durations performed (seconds) and whether the loop broke with the
farewell message.  `false` means the loop is still running after the
trace. -/
def runLoop : List LoopEvent → List Nat × Bool
  | [] => ([], false)
  | e :: es =>
    match e with
    | .interrupt => ([], true)
    | .error =>
      let r := runLoop es
      (5 :: r.1, r.2)
    | .normal =>
      let r := runLoop es
      (1 :: r.1, r.2)

/-! ## Claim theorems -/

/-- C4: for `target` strictly after `now`, `get_time_remaining` returns
exactly the decomposition `(total // 3600, (total % 3600) // 60,
total % 60)` of the whole-second difference `total = target - now`; the
three components are non-negative (with minutes and seconds below 60) and
recompose to `total`; concretely `remaining(12:00:00, 12:00:05) = (0,0,5)`
and `remaining(10:00:00, 12:30:15) = (2,30,15)`. -/
theorem claim_C4_time_remaining (now target : Int) (h : now < target) :
    get_time_remaining now target =
      (Int.fdiv (target - now) 3600,
       Int.fdiv (Int.fmod (target - now) 3600) 60,
       Int.fmod (target - now) 60) ∧
    0 ≤ (get_time_remaining now target).1 ∧
    0 ≤ (get_time_remaining now target).2.1 ∧
    (get_time_remaining now target).2.1 < 60 ∧
    0 ≤ (get_time_remaining now target).2.2 ∧
    (get_time_remaining now target).2.2 < 60 ∧
    (get_time_remaining now target).1 * 3600 +
      (get_time_remaining now target).2.1 * 60 +
      (get_time_remaining now target).2.2 = target - now ∧
    get_time_remaining (12 * 3600) (12 * 3600 + 5) = (0, 0, 5) ∧
    get_time_remaining (10 * 3600) (12 * 3600 + 30 * 60 + 15) = (2, 30, 15) := by
  have h36 : (0 : Int) ≤ 3600 := by norm_num
  have h60 : (0 : Int) ≤ 60 := by norm_num
  refine ⟨rfl, ?_, ?_, ?_, ?_, ?_, ?_, by decide, by decide⟩ <;>
    simp only [get_time_remaining, Int.fdiv_eq_ediv _ h36, Int.fmod_eq_emod _ h36,
      Int.fdiv_eq_ediv _ h60, Int.fmod_eq_emod _ h60] <;>
    omega

/-- C4 witness: the theorem applied at `now = 10:00:00`,
`target = 12:30:15`. -/
theorem claim_C4_witness :
    get_time_remaining (10 * 3600) (12 * 3600 + 30 * 60 + 15) = (2, 30, 15) :=
  (claim_C4_time_remaining (10 * 3600) (12 * 3600 + 30 * 60 + 15)
    (by norm_num)).2.2.2.2.2.2.2.2

/-- C5: for `m = 0`, for `m ≥ 181`, and for any `m ≥ 20` outside the
ladder, `should_announce` returns `false` and leaves the fired set
unchanged, whatever the current state. -/
theorem claim_C5_never_announces (m : Int)
    (hm : m = 0 ∨ 181 ≤ m ∨ (20 ≤ m ∧ m ∉ ANNOUNCEMENT_INTERVALS))
    (s : Finset Int) :
    should_announce s m = (false, s) := by
  have hladder : m ∉ ANNOUNCEMENT_INTERVALS := by
    rcases hm with rfl | hm | hm
    · decide
    · intro hmem
      simp only [ANNOUNCEMENT_INTERVALS, List.mem_cons, List.not_mem_nil,
        or_false] at hmem
      omega
    · exact hm.2
  have hrange : ¬(1 ≤ m ∧ m < 20) := by
    rcases hm with rfl | hm | hm <;> omega
  simp [should_announce, hladder, hrange]

/-- C5 witness: the theorem applied at `m = 25` (a non-ladder value
`≥ 20`) from the empty state. -/
theorem claim_C5_witness : should_announce ∅ 25 = (false, ∅) :=
  claim_C5_never_announces 25 (Or.inr (Or.inr ⟨by norm_num, by decide⟩)) ∅

/-- C6: after the fired-thresholds set is cleared (as the deadline-crossing
branch of `run` does), every announcement-eligible minute value `m` — in
particular every previously fired one — fires again on its next query. -/
theorem claim_C6_reset_reenables (m : Int) (hm : eligibleMinute m) :
    (should_announce ∅ m).1 = true := by
  rw [should_announce_of_fresh hm (Finset.not_mem_empty m)]

/-- C6 witness: the theorem applied at the ladder value `m = 180`. -/
theorem claim_C6_witness : (should_announce ∅ 180).1 = true :=
  claim_C6_reset_reenables 180 (Or.inl (by decide))

/-- C7 (failing input): a response that decodes fine and carries
`code = 500` with a well-formed `data.timings` makes
`fetch_prayer_times` fall off the function's end and return `None` —
no error is reported and `sys.exit(1)` is never reached, contradicting
the claim that a non-success status code is fatal with a reported error. -/
theorem claim_C7_nonsuccess_returns_none :
    fetch_prayer_times
      (some { code := some 500,
              timings := some (fun p => if p ∈ PRAYERS then some "05:00" else none) }) =
      FetchOutcome.returnsNone := rfl

/-- C8: whenever the geolocation lookup fails — the request or JSON
decoding raises (`resp = none`, covering network errors, timeouts and
malformed responses) or the decoded body's `status` is absent or not
`'success'` — `detect_location` returns the fixed Mecca default, whose
coordinates are latitude 21.4225 and longitude 39.8262.  Totality of the
embedding reflects that the Python function never raises: every exception
inside its `try` is caught. -/
theorem claim_C8_fallback_mecca (resp : Option GeoResponse)
    (h : ∀ r, resp = some r → r.status ≠ some "success") :
    detect_location resp = meccaDefault ∧
    meccaDefault.latitude = 21.4225 ∧
    meccaDefault.longitude = 39.8262 := by
  refine ⟨?_, rfl, rfl⟩
  match resp with
  | none => rfl
  | some r => simp [detect_location, h r rfl]

/-- C8 witness: the theorem applied to a decoded response whose `status`
is `"fail"`. -/
theorem claim_C8_witness :
    detect_location (some ⟨some "fail", none, none, none, none⟩) = meccaDefault ∧
    meccaDefault.latitude = 21.4225 ∧
    meccaDefault.longitude = 39.8262 :=
  claim_C8_fallback_mecca _ (by
    intro r hr
    injection hr with hr
    subst hr
    decide)

/-- C9: over any finite trace of loop-iteration outcomes, the loop breaks
with the farewell message exactly when a keyboard interrupt occurs in the
trace, and an iteration that raises any other exception contributes a
5-second cooldown sleep after which processing of the rest of the trace
continues unchanged. -/
theorem claim_C9_loop_error_handling (es : List LoopEvent) :
    ((runLoop es).2 = true ↔ LoopEvent.interrupt ∈ es) ∧
    runLoop (LoopEvent.error :: es) = (5 :: (runLoop es).1, (runLoop es).2) := by
  constructor
  · induction es with
    | nil => simp [runLoop]
    | cons e es ih => cases e <;> simp [runLoop, ih]
  · rfl

/-- C2: a loop step at remaining time exactly zero with the
deadline-announced flag unset emits the prayer announcement, sets the flag
and clears the fired-thresholds set; a further step at zero (flag now set)
does not emit it again; and a step at any positive remaining time resets
the flag to false. -/
theorem claim_C2_deadline_step (s : Finset Int) (b : Bool)
    (hours minutes seconds : Int) (hh : 0 ≤ hours) (hm : 0 ≤ minutes)
    (_hsec : 0 ≤ seconds) (hpos : ¬(hours = 0 ∧ minutes = 0 ∧ seconds = 0)) :
    runStep ⟨s, false⟩ 0 0 0 = ⟨true, false, ⟨∅, true⟩⟩ ∧
    (runStep ⟨∅, true⟩ 0 0 0).azan = false ∧
    (runStep ⟨s, b⟩ hours minutes seconds).state.current_prayer_announced
      = false := by
  refine ⟨?_, by decide, ?_⟩
  · simp [runStep]
  · have hcond : ¬(hours * 60 + minutes = 0 ∧ seconds = 0) := by omega
    simp [runStep, hcond]

/-- C2 witness: the theorem applied at the concrete state
`({20}, flag set)` and positive remaining time `0h 0m 5s`. -/
theorem claim_C2_witness :
    runStep ⟨{20}, false⟩ 0 0 0 = ⟨true, false, ⟨∅, true⟩⟩ ∧
    (runStep ⟨∅, true⟩ 0 0 0).azan = false ∧
    (runStep ⟨{20}, true⟩ 0 0 5).state.current_prayer_announced = false :=
  claim_C2_deadline_step {20} true 0 0 5 (by norm_num) (by norm_num)
    (by norm_num) (by simp)

/-- Whatever the scan of the remaining prayers of the day returns is one of
the scanned prayers, paired with a today-instant strictly after `now`. -/
theorem scanPrayers_some_mem {times : String → Int} {now : Instant}
    {ps : List String} {r : String × Instant}
    (h : scanPrayers times now ps = some r) :
    r.1 ∈ ps ∧ instLt now r.2 := by
  induction ps with
  | nil => simp [scanPrayers] at h
  | cons p ps ih =>
    unfold scanPrayers at h
    split_ifs at h with hc
    · cases h
      exact ⟨List.mem_cons_self p ps, hc⟩
    · rcases ih h with ⟨h1, h2⟩
      exact ⟨List.mem_cons_of_mem p h1, h2⟩

/-- C10: `get_next_prayer` always yields one of the five canonical prayer
names together with an instant strictly after `now` — in the today branch
because the scan condition is the strict comparison, in the wraparound
branch because tomorrow's date alone makes the instant strictly later.
Totality of the embedding reflects that both Python return paths yield a
non-`None` pair, so the run loop's "no upcoming prayers" branch is
unreachable. -/
theorem claim_C10_next_prayer_future (times : String → Int) (now : Instant) :
    (get_next_prayer times now).1 ∈ PRAYERS ∧
    instLt now (get_next_prayer times now).2 := by
  rcases hs : scanPrayers times now PRAYERS with _ | r
  · simp only [get_next_prayer, hs]
    exact ⟨by decide, Or.inl (show now.day < now.day + 1 by omega)⟩
  · simp only [get_next_prayer, hs]
    exact scanPrayers_some_mem hs

/-- C1: within one announcement cycle (a run of `should_announce` calls
starting from the freshly cleared fired set), an eligible minute value `m`
(ladder value or integer in `[1,20)`) yields `true` on the first call
querying `m` (position `pre.length`, where `pre` lists the earlier queries,
none of them `m`) and `false` on every later call querying `m`. -/
theorem claim_C1_fire_once (m : Int) (hm : eligibleMinute m)
    (pre post : List Int) (hpre : m ∉ pre) :
    (announceRun (pre ++ m :: post) ∅).1.get? pre.length = some true ∧
    ∀ j, pre.length < j → (pre ++ m :: post).get? j = some m →
      (announceRun (pre ++ m :: post) ∅).1.get? j = some false := by
  have hstate : m ∉ (announceRun pre ∅).2 :=
    not_mem_announceRun_state hpre (Finset.not_mem_empty m)
  have hlen : (announceRun pre ∅).1.length = pre.length :=
    announceRun_length pre ∅
  have happ := announceRun_append pre (m :: post) ∅
  have hrest : announceRun (m :: post) (announceRun pre ∅).2 =
      (true :: (announceRun post (insert m (announceRun pre ∅).2)).1,
       (announceRun post (insert m (announceRun pre ∅).2)).2) := by
    simp [announceRun, should_announce_of_fresh hm hstate]
  constructor
  · rw [happ]
    rw [List.get?_append_right (by omega)]
    rw [hlen, Nat.sub_self, hrest]
    rfl
  · intro j hj hq
    rw [List.get?_append_right (by omega)] at hq
    obtain ⟨k, hk⟩ : ∃ k, j - pre.length = k + 1 := ⟨j - pre.length - 1, by omega⟩
    rw [hk] at hq
    have hq' : post.get? k = some m := hq
    rw [happ]
    rw [List.get?_append_right (by omega), hlen, hk, hrest]
    have := announceRun_fired_false
      (Finset.mem_insert_self m (announceRun pre ∅).2) post k hq'
    simpa using this

/-- C1 witness: the theorem applied at `m = 20` with earlier query `30`
and a repeated query of `20` afterwards: the call sequence `[30, 20, 20]`
from the empty set yields `true` at index 1 and `false` at index 2. -/
theorem claim_C1_witness :
    (announceRun ([30] ++ 20 :: [20]) ∅).1.get? 1 = some true ∧
    (announceRun ([30] ++ 20 :: [20]) ∅).1.get? 2 = some false := by
  have h := claim_C1_fire_once 20 (Or.inl (by decide)) [30] [20] (by decide)
  exact ⟨h.1, h.2 2 (by decide) (by decide)⟩

/-- C3: `get_next_prayer` scans the five prayers in the canonical order
Fajr, Dhuhr, Asr, Maghrib, Isha and returns the first whose time-of-day on
today's date is strictly after `now` (witnessed by a split
`PRAYERS = l₁ ++ p :: l₂` with every prayer in `l₁` at or before `now`);
if all five times today are at or before `now`, it returns Fajr on
tomorrow's date — concretely, with `now = 23:00` and the sample schedule it
returns tomorrow's Fajr at `05:00`. -/
theorem claim_C3_next_prayer (times : String → Int) (now : Instant) :
    ((∃ l₁ p l₂, PRAYERS = l₁ ++ p :: l₂ ∧
        (∀ q ∈ l₁, ¬ instLt now ⟨now.day, times q⟩) ∧
        instLt now ⟨now.day, times p⟩ ∧
        get_next_prayer times now = (p, ⟨now.day, times p⟩)) ∨
      ((∀ q ∈ PRAYERS, ¬ instLt now ⟨now.day, times q⟩) ∧
        get_next_prayer times now = ("Fajr", ⟨now.day + 1, times "Fajr"⟩))) ∧
    get_next_prayer sampleSchedule ⟨0, 23 * 3600⟩ = ("Fajr", ⟨1, 5 * 3600⟩) := by
  constructor
  · by_cases h0 : instLt now ⟨now.day, times "Fajr"⟩
    · refine Or.inl ⟨[], "Fajr", ["Dhuhr", "Asr", "Maghrib", "Isha"], rfl,
        by simp, h0, ?_⟩
      simp [get_next_prayer, PRAYERS, scanPrayers, h0]
    by_cases h1 : instLt now ⟨now.day, times "Dhuhr"⟩
    · refine Or.inl ⟨["Fajr"], "Dhuhr", ["Asr", "Maghrib", "Isha"], rfl, ?_,
        h1, ?_⟩
      · intro q hq
        simp only [List.mem_singleton] at hq
        subst hq
        exact h0
      · simp [get_next_prayer, PRAYERS, scanPrayers, h0, h1]
    by_cases h2 : instLt now ⟨now.day, times "Asr"⟩
    · refine Or.inl ⟨["Fajr", "Dhuhr"], "Asr", ["Maghrib", "Isha"], rfl, ?_,
        h2, ?_⟩
      · intro q hq
        simp only [List.mem_cons, List.mem_singleton, List.not_mem_nil,
          or_false] at hq
        rcases hq with rfl | rfl <;> assumption
      · simp [get_next_prayer, PRAYERS, scanPrayers, h0, h1, h2]
    by_cases h3 : instLt now ⟨now.day, times "Maghrib"⟩
    · refine Or.inl ⟨["Fajr", "Dhuhr", "Asr"], "Maghrib", ["Isha"], rfl, ?_,
        h3, ?_⟩
      · intro q hq
        simp only [List.mem_cons, List.mem_singleton, List.not_mem_nil,
          or_false] at hq
        rcases hq with rfl | rfl | rfl <;> assumption
      · simp [get_next_prayer, PRAYERS, scanPrayers, h0, h1, h2, h3]
    by_cases h4 : instLt now ⟨now.day, times "Isha"⟩
    · refine Or.inl ⟨["Fajr", "Dhuhr", "Asr", "Maghrib"], "Isha", [], rfl, ?_,
        h4, ?_⟩
      · intro q hq
        simp only [List.mem_cons, List.mem_singleton, List.not_mem_nil,
          or_false] at hq
        rcases hq with rfl | rfl | rfl | rfl <;> assumption
      · simp [get_next_prayer, PRAYERS, scanPrayers, h0, h1, h2, h3, h4]
    · refine Or.inr ⟨?_, ?_⟩
      · intro q hq
        simp only [PRAYERS, List.mem_cons, List.mem_singleton,
          List.not_mem_nil, or_false] at hq
        rcases hq with rfl | rfl | rfl | rfl | rfl <;> assumption
      · simp [get_next_prayer, PRAYERS, scanPrayers, h0, h1, h2, h3, h4]
  · decide

end PrayerTimer
